import Mathlib

/-!
Shallow embedding of the fogfish/geojson Go library (src/position.go,
src/geometry.go, src/feature.go, src/collection.go).

Modelling conventions:
* Go `float64` is modelled as `ℚ`; every number appearing in the claims is
  exact in both representations and only order comparisons are performed.
* Go slices are modelled as `List`; a nil slice and an empty slice are both
  modelled as `[]` (the library only ever branches on `len`).
* Go byte input/output of `encoding/json` is modelled at the JSON-tree level
  (`Json` below); the generic byte-level JSON codec is an external
  collaborator of the library.
* A Go runtime panic (index out of range) and a returned `error` are both
  modelled in the `Except GoErr` monad with distinct constructors.
-/

namespace GeoJson

/-- JSON value tree, the interface to Go `encoding/json`. -/
inductive Json where
  | null : Json
  | bool (b : Bool) : Json
  | num (q : ℚ) : Json
  | str (s : String) : Json
  | arr (elems : List Json) : Json
  | obj (fields : List (String × Json)) : Json

/-- Outcomes of the Go code that are not normal returns.
`panic` models a Go runtime panic (index out of range);
`malformed` models an error produced by `encoding/json`;
`unsupportedGeometryType t` models `fmt.Errorf("type %s is not supported as
GeoJSON Geometry", t)` from `decodeGeometry` (geometry.go), which embeds the
offending type string;
`errUnsupportedType` models the package-level sentinel `ErrUnsupportedType`
returned by `Feature.DecodeGeoJSON` and `Collection.DecodeGeoJSON`
(feature.go, collection.go); its definition file is not part of src/, but as a
package-level constant (older revisions: `Error("GeoJSON type is not
supported")`) it is a fixed value carrying no per-call context;
`propsCodec` models an error from the host-supplied properties codec. -/
inductive GoErr where
  | panic : GoErr
  | malformed : GoErr
  | unsupportedGeometryType (t : String) : GoErr
  | errUnsupportedType : GoErr
  | propsCodec : GoErr
deriving DecidableEq, Repr

abbrev Res (α : Type) : Type := Except GoErr α

/-- Effectful map over a list, stopping at the first error (the order in
which `encoding/json` decodes array elements). -/
def mapME {α β : Type} (f : α → Res β) : List α → Res (List β)
  | [] => .ok []
  | x :: xs =>
    match f x with
    | .error er => .error er
    | .ok y =>
      match mapME f xs with
      | .error er => .error er
      | .ok ys => .ok (y :: ys)

/-- Effectful left fold over a list, stopping at the first error (the shape
of the `for` loops in the Go source). -/
def foldME {α β : Type} (f : β → α → Res β) : β → List α → Res β
  | b, [] => .ok b
  | b, x :: xs =>
    match f b x with
    | .error er => .error er
    | .ok b1 => foldME f b1 xs

/-! ### position.go: coordinate shapes -/

/-- `Coord` (position.go): a position, an array of numbers. -/
abbrev Coord : Type := List ℚ

/-- `Curve` (position.go): a sequence of positions. -/
abbrev Curve : Type := List Coord

/-- `Surface` (position.go): a sequence of curves / linear rings. -/
abbrev Surface : Type := List Curve

/-- `Surfaces` (position.go): a sequence of surfaces. -/
abbrev Surfaces : Type := List Surface

/-- `Coord.Lng` (position.go): `coords[0]`; Go panics when the slice is
shorter. -/
def Coord.Lng : Coord → Res ℚ
  | [] => .error .panic
  | x :: _ => .ok x

/-- `Coord.Lat` (position.go): `coords[1]`; Go panics when the slice is
shorter. -/
def Coord.Lat : Coord → Res ℚ
  | _ :: y :: _ => .ok y
  | _ => .error .panic

/-- Leaf-coordinate list visited by `Coord.FMap` (position.go): the visitor
is applied to the coordinate itself, once. -/
def Coord.FMapList (c : Coord) : List Coord := [c]

/-- Leaf-coordinate list visited by `Curve.FMap` (position.go). -/
def Curve.FMapList (seq : Curve) : List Coord := seq

/-- Leaf-coordinate list visited by `Surface.FMap` (position.go). -/
def Surface.FMapList (seq : Surface) : List Coord := seq.flatten

/-- Leaf-coordinate list visited by `Surfaces.FMap` (position.go). -/
def Surfaces.FMapList (seq : Surfaces) : List Coord :=
  (seq.map Surface.FMapList).flatten

/-- `BoundingBox` (position.go): `[]float64`; the library produces either a
nil box (absent, modelled `[]`) or `[w, s, e, n]`. -/
abbrev BoundingBox : Type := List ℚ

/-- `BoundingBox.SouthWest` (position.go): `bbox[:len(bbox)/2]`. -/
def BoundingBox.SouthWest (bbox : BoundingBox) : Coord :=
  bbox.take (bbox.length / 2)

/-- `BoundingBox.NorthEast` (position.go): `bbox[len(bbox)/2:]`. -/
def BoundingBox.NorthEast (bbox : BoundingBox) : Coord :=
  bbox.drop (bbox.length / 2)

/-- Read `xs[i]`; Go panics out of range. -/
def sliceGet (xs : List ℚ) (i : Nat) : Res ℚ :=
  match xs.get? i with
  | some x => .ok x
  | none => .error .panic

/-- `BoundingBox.Join` (position.go): widens `bbox` pointwise by the corners
of `box`, mutating `bbox` in place (modelled by returning the new list).
Each comparison first indexes `bbox` and then the corner coordinate, so a
too-short receiver or argument is a Go panic. -/
def BoundingBox.Join (bbox box : BoundingBox) : Res BoundingBox :=
  let n := bbox.length / 2
  let sw := BoundingBox.SouthWest box
  let ne := BoundingBox.NorthEast box
  match sliceGet bbox 0 with
  | .error er => .error er
  | .ok b0 =>
    match Coord.Lng sw with
    | .error er => .error er
    | .ok swLng =>
      let bbox1 := if b0 > swLng then bbox.set 0 swLng else bbox
      match sliceGet bbox1 1 with
      | .error er => .error er
      | .ok b1 =>
        match Coord.Lat sw with
        | .error er => .error er
        | .ok swLat =>
          let bbox2 := if b1 > swLat then bbox1.set 1 swLat else bbox1
          match sliceGet bbox2 n with
          | .error er => .error er
          | .ok bn =>
            match Coord.Lng ne with
            | .error er => .error er
            | .ok neLng =>
              let bbox3 := if bn < neLng then bbox2.set n neLng else bbox2
              match sliceGet bbox3 (n + 1) with
              | .error er => .error er
              | .ok bn1 =>
                match Coord.Lat ne with
                | .error er => .error er
                | .ok neLat =>
                  .ok (if bn1 < neLat then bbox3.set (n + 1) neLat else bbox3)

/-- One visitor step of the closure inside `boundingBox` (position.go):
reads `c.LatLng()` (panics on a short coordinate) and widens the running
`(s, w, n, e)` monotonically. -/
def bboxStep (acc : ℚ × ℚ × ℚ × ℚ) (c : Coord) : Res (ℚ × ℚ × ℚ × ℚ) :=
  match Coord.Lat c, Coord.Lng c with
  | .ok lat, .ok lng =>
    match acc with
    | (s, w, n, e) =>
      .ok (if lat < s then lat else s,
           if lng < w then lng else w,
           if lat > n then lat else n,
           if lng > e then lng else e)
  | .error er, _ => .error er
  | .ok _, .error er => .error er

/-- `boundingBox` (position.go): seeds all four extremes from `seed`, folds
the shape traversal (given as its leaf-coordinate list), returns
`[w, s, e, n]`. -/
def boundingBox (seed : Coord) (coords : List Coord) : Res BoundingBox :=
  match Coord.Lat seed, Coord.Lng seed with
  | .ok s0, .ok w0 =>
    match foldME bboxStep (s0, w0, s0, w0) coords with
    | .error er => .error er
    | .ok (s, w, n, e) => .ok [w, s, e, n]
  | .error er, _ => .error er
  | .ok _, .error er => .error er

/-! ### geometry.go: the six geometry variants -/

/-- `Point` (geometry.go). -/
structure Point where
  Coords : Coord
deriving DecidableEq, Repr

/-- `MultiPoint` (geometry.go). -/
structure MultiPoint where
  Coords : Curve
deriving DecidableEq, Repr

/-- `LineString` (geometry.go). -/
structure LineString where
  Coords : Curve
deriving DecidableEq, Repr

/-- `MultiLineString` (geometry.go). -/
structure MultiLineString where
  Coords : Surface
deriving DecidableEq, Repr

/-- `Polygon` (geometry.go). -/
structure Polygon where
  Coords : Surface
deriving DecidableEq, Repr

/-- `MultiPolygon` (geometry.go). -/
structure MultiPolygon where
  Coords : Surfaces
deriving DecidableEq, Repr

/-- The `Geometry` interface (geometry.go): a closed union of the six
variants (each Go implementation is a pointer to one of the six structs). -/
inductive Geometry where
  | point (g : Point) : Geometry
  | multiPoint (g : MultiPoint) : Geometry
  | lineString (g : LineString) : Geometry
  | multiLineString (g : MultiLineString) : Geometry
  | polygon (g : Polygon) : Geometry
  | multiPolygon (g : MultiPolygon) : Geometry
deriving DecidableEq, Repr

/-- `Point.BoundingBox` (geometry.go): nil when the point has no
coordinates, else `boundingBox(Coords, Coords)` (the shape traversal of a
single `Coord` visits just that coordinate). -/
def Point.BoundingBox (geo : Point) : Res BoundingBox :=
  match geo.Coords with
  | [] => .ok []
  | _ => boundingBox geo.Coords (Coord.FMapList geo.Coords)

/-- `MultiPoint.BoundingBox` (geometry.go): nil when empty, else
`boundingBox(Coords[0], Coords)`. -/
def MultiPoint.BoundingBox (geo : MultiPoint) : Res BoundingBox :=
  match geo.Coords with
  | [] => .ok []
  | c0 :: _ => boundingBox c0 (Curve.FMapList geo.Coords)

/-- `LineString.BoundingBox` (geometry.go): nil when empty, else
`boundingBox(Coords[0], Coords)`. -/
def LineString.BoundingBox (geo : LineString) : Res BoundingBox :=
  match geo.Coords with
  | [] => .ok []
  | c0 :: _ => boundingBox c0 (Curve.FMapList geo.Coords)

/-- `MultiLineString.BoundingBox` (geometry.go): nil when
`len(Coords) == 0 || len(Coords[0]) == 0`, else
`boundingBox(Coords[0][0], Coords)`. -/
def MultiLineString.BoundingBox (geo : MultiLineString) : Res BoundingBox :=
  match geo.Coords with
  | [] => .ok []
  | [] :: _ => .ok []
  | (c0 :: _) :: _ => boundingBox c0 (Surface.FMapList geo.Coords)

/-- `Polygon.BoundingBox` (geometry.go): nil when
`len(Coords) == 0 || len(Coords[0]) == 0`, else
`boundingBox(Coords[0][0], Coords)`. -/
def Polygon.BoundingBox (geo : Polygon) : Res BoundingBox :=
  match geo.Coords with
  | [] => .ok []
  | [] :: _ => .ok []
  | (c0 :: _) :: _ => boundingBox c0 (Surface.FMapList geo.Coords)

/-- The body of the `for` loop in `MultiPolygon.BoundingBox` (geometry.go):
surfaces failing `len(surface) > 0 && len(surface[0]) > 0` are skipped, the
others are joined into the running box. -/
def multiPolygonJoinStep (bbox : BoundingBox) (surface : Surface) :
    Res BoundingBox :=
  match surface with
  | [] => .ok bbox
  | [] :: _ => .ok bbox
  | (c0 :: _) :: _ =>
    match boundingBox c0 (Surface.FMapList surface) with
    | .error er => .error er
    | .ok b => BoundingBox.Join bbox b

/-- `MultiPolygon.BoundingBox` (geometry.go): nil when
`len(Coords) == 0 || len(Coords[0]) == 0`; otherwise seeds from
`boundingBox(Coords[0][0][0], Coords[0])` (Go panics when the first ring of
the first surface is empty, since `Coords[0][0][0]` is indexed without a
guard) and then joins every surface of the loop, which starts again at
index 0. -/
def MultiPolygon.BoundingBox (geo : MultiPolygon) : Res BoundingBox :=
  match geo.Coords with
  | [] => .ok []
  | [] :: _ => .ok []
  | (r0 :: rs) :: _ =>
    match r0 with
    | [] => .error .panic
    | c0 :: _ =>
      match boundingBox c0 (Surface.FMapList (r0 :: rs)) with
      | .error er => .error er
      | .ok b0 => foldME multiPolygonJoinStep b0 geo.Coords

/-- `Geometry.BoundingBox` dispatch (the interface method, geometry.go). -/
def Geometry.BoundingBox : Geometry → Res BoundingBox
  | .point g => Point.BoundingBox g
  | .multiPoint g => MultiPoint.BoundingBox g
  | .lineString g => LineString.BoundingBox g
  | .multiLineString g => MultiLineString.BoundingBox g
  | .polygon g => Polygon.BoundingBox g
  | .multiPolygon g => MultiPolygon.BoundingBox g

/-! ### encoding/json behaviour used by the library -/

/-- Field lookup in a decoded JSON object; with duplicate keys
`encoding/json` lets the last occurrence win, so a later binding shadows an
earlier one. -/
def jsonLookup (fields : List (String × Json)) (k : String) : Option Json :=
  match fields with
  | [] => none
  | (k1, v) :: rest =>
    match jsonLookup rest k with
    | some v2 => some v2
    | none => if k1 == k then some v else none

/-- Unmarshal a JSON value into a Go `string`-kinded target (`geometryType`,
`string`, `curie.IRI`): an absent field or JSON `null` leaves the zero value
`""`; a non-string value is an `encoding/json` error. -/
def getStringField (fields : List (String × Json)) (k : String) : Res String :=
  match jsonLookup fields k with
  | none => .ok ""
  | some .null => .ok ""
  | some (.str s) => .ok s
  | some _ => .error .malformed

/-- Unmarshal a JSON value into a `float64`: `null` leaves the zero value,
anything but a number is an `encoding/json` error. -/
def decodeNum : Json → Res ℚ
  | .null => .ok 0
  | .num q => .ok q
  | _ => .error .malformed

/-- Unmarshal into a `Coord` (`[]float64`): `null` leaves the nil slice. -/
def decodeCoord : Json → Res Coord
  | .null => .ok []
  | .arr xs => mapME decodeNum xs
  | _ => .error .malformed

/-- Unmarshal into a `Curve` (`[]Coord`). -/
def decodeCurve : Json → Res Curve
  | .null => .ok []
  | .arr xs => mapME decodeCoord xs
  | _ => .error .malformed

/-- Unmarshal into a `Surface` (`[]Curve`). -/
def decodeSurface : Json → Res Surface
  | .null => .ok []
  | .arr xs => mapME decodeCurve xs
  | _ => .error .malformed

/-- Unmarshal into a `Surfaces` (`[]Surface`). -/
def decodeSurfaces : Json → Res Surfaces
  | .null => .ok []
  | .arr xs => mapME decodeSurface xs
  | _ => .error .malformed

/-- Marshal a `Coord`. Go marshals a nil slice as `null` and any other slice
as an array; both decode back to the same model value, and the model always
emits the array form. -/
def Coord.toJson (c : Coord) : Json := .arr (c.map Json.num)

/-- Marshal a `Curve`. -/
def Curve.toJson (s : Curve) : Json := .arr (s.map Coord.toJson)

/-- Marshal a `Surface`. -/
def Surface.toJson (s : Surface) : Json := .arr (s.map Curve.toJson)

/-- Marshal a `Surfaces`. -/
def Surfaces.toJson (s : Surfaces) : Json := .arr (s.map Surface.toJson)

/-! ### geometry.go: GeoJSON codec -/

/-- `json.Unmarshal` of the geometry bytes into the anonymous
`struct { Type geometryType; Coords json.RawMessage }` of `decodeGeometry`
(geometry.go): yields the `type` string (zero value `""` when absent or
null) and the raw `coordinates` sub-tree (`nil` RawMessage when the field is
absent). -/
def geometryEnvelope (j : Json) : Res (String × Option Json) :=
  match j with
  | .null => .ok ("", none)
  | .obj fields =>
    match getStringField fields "type" with
    | .error er => .error er
    | .ok t => .ok (t, jsonLookup fields "coordinates")
  | _ => .error .malformed

/-- `json.Unmarshal(b, target)` where `b` is a `json.RawMessage` that is nil
when the field was absent: unmarshalling a nil byte slice is an
`encoding/json` syntax error. -/
def rawMessage (raw : Option Json) : Res Json :=
  match raw with
  | none => .error .malformed
  | some v => .ok v

/-- Decode the `coordinates` raw message into a variant shape and wrap the
result, as `geo.unmarshalGeoJSON(gen.Coords)` does for each variant. -/
def decodeCoordsInto {σ : Type} (dec : Json → Res σ) (mk : σ → Geometry)
    (raw : Option Json) : Res (Option Geometry) :=
  match rawMessage raw with
  | .error er => .error er
  | .ok v =>
    match dec v with
    | .error er => .error er
    | .ok sh => .ok (some (mk sh))

/-- `decodeGeometry` (geometry.go): extracts the `type` discriminator and
the raw `coordinates`; `""` is the valid null-geometry case; the six
recognized tags select the variant whose `unmarshalGeoJSON` then decodes
`coordinates`; any other tag is the `fmt.Errorf` unsupported-type error
naming the offending string. -/
def decodeGeometry (j : Json) : Res (Option Geometry) :=
  match geometryEnvelope j with
  | .error er => .error er
  | .ok (ty, raw) =>
    if ty = "" then .ok none
    else if ty = "Point" then
      decodeCoordsInto decodeCoord (fun c => .point ⟨c⟩) raw
    else if ty = "MultiPoint" then
      decodeCoordsInto decodeCurve (fun c => .multiPoint ⟨c⟩) raw
    else if ty = "LineString" then
      decodeCoordsInto decodeCurve (fun c => .lineString ⟨c⟩) raw
    else if ty = "MultiLineString" then
      decodeCoordsInto decodeSurface (fun c => .multiLineString ⟨c⟩) raw
    else if ty = "Polygon" then
      decodeCoordsInto decodeSurface (fun c => .polygon ⟨c⟩) raw
    else if ty = "MultiPolygon" then
      decodeCoordsInto decodeSurfaces (fun c => .multiPolygon ⟨c⟩) raw
    else .error (.unsupportedGeometryType ty)

/-- `Point.MarshalJSON` (geometry.go): `{"type": "Point", "coordinates": …}`.
Marshalling rationals cannot fail (Go fails only on NaN/Inf floats, which ℚ
does not contain). -/
def Point.MarshalJSON (geo : Point) : Json :=
  .obj [("type", .str "Point"), ("coordinates", Coord.toJson geo.Coords)]

/-- `MultiPoint.MarshalJSON` (geometry.go). -/
def MultiPoint.MarshalJSON (geo : MultiPoint) : Json :=
  .obj [("type", .str "MultiPoint"), ("coordinates", Curve.toJson geo.Coords)]

/-- `LineString.MarshalJSON` (geometry.go). -/
def LineString.MarshalJSON (geo : LineString) : Json :=
  .obj [("type", .str "LineString"), ("coordinates", Curve.toJson geo.Coords)]

/-- `MultiLineString.MarshalJSON` (geometry.go). -/
def MultiLineString.MarshalJSON (geo : MultiLineString) : Json :=
  .obj [("type", .str "MultiLineString"),
        ("coordinates", Surface.toJson geo.Coords)]

/-- `Polygon.MarshalJSON` (geometry.go). -/
def Polygon.MarshalJSON (geo : Polygon) : Json :=
  .obj [("type", .str "Polygon"), ("coordinates", Surface.toJson geo.Coords)]

/-- `MultiPolygon.MarshalJSON` (geometry.go). -/
def MultiPolygon.MarshalJSON (geo : MultiPolygon) : Json :=
  .obj [("type", .str "MultiPolygon"),
        ("coordinates", Surfaces.toJson geo.Coords)]

/-- Marshal dispatch over the `Geometry` union (what `json.Marshal` does to
the interface value). -/
def Geometry.MarshalJSON : Geometry → Json
  | .point g => Point.MarshalJSON g
  | .multiPoint g => MultiPoint.MarshalJSON g
  | .lineString g => LineString.MarshalJSON g
  | .multiLineString g => MultiLineString.MarshalJSON g
  | .polygon g => Polygon.MarshalJSON g
  | .multiPolygon g => MultiPolygon.MarshalJSON g

/-! ### feature.go: Feature envelope -/

/-- `Feature` (feature.go): identifier (`curie.IRI`, an opaque string-kinded
value, zero value `""`) and a nullable `Geometry` interface value. -/
structure Feature where
  ID : String
  Geometry : Option Geometry
deriving DecidableEq, Repr

/-- `Feature.BoundingBox` (feature.go): nil when the geometry is nil, else
the geometry's box. -/
def Feature.BoundingBox (fea : Feature) : Res GeoJson.BoundingBox :=
  match fea.Geometry with
  | none => .ok []
  | some geo => Geometry.BoundingBox geo

/-- The bbox switch of `Feature.EncodeGeoJSON` (feature.go) — "Note: skip
bounding box for the point." — nil for a nil geometry and for a bare
`*Point`, otherwise the geometry's box. About the enclosing `EncodeGeoJSON`,
modelled next: the host properties value is
modelled by its marshalled JSON tree `props` (`json.Marshal(props)`); on
success that byte fragment is never empty, so the `properties` field, though
tagged `omitempty`, is always emitted. The bbox is skipped for a nil
geometry and for a bare `*Point`; `omitempty` drops a nil (`[]`) box. The
`geometry` field has no `omitempty` and is emitted as `null` for a nil
geometry. `id` has `omitempty` and is dropped when `""`. Field order follows
the Go struct: type, bbox, id, geometry, properties. -/
def featureBBoxSwitch (og : Option Geometry) : Res BoundingBox :=
  match og with
  | none => .ok []
  | some (.point _) => .ok []
  | some geo => Geometry.BoundingBox geo

/-- `Feature.EncodeGeoJSON` (feature.go), continued: the envelope built
around `featureBBoxSwitch` above; see that switch's doc comment for the
`omitempty` conventions. -/
def Feature.EncodeGeoJSON (fea : Feature) (props : Json) : Res Json :=
  match featureBBoxSwitch fea.Geometry with
  | .error er => .error er
  | .ok bbox =>
    .ok (.obj
      ([("type", Json.str "Feature")]
        ++ (if bbox = [] then [] else [("bbox", Json.arr (bbox.map Json.num))])
        ++ (if fea.ID = "" then [] else [("id", Json.str fea.ID)])
        ++ [("geometry",
              match fea.Geometry with
              | none => Json.null
              | some geo => Geometry.MarshalJSON geo),
            ("properties", props)]))

/-- `anyGeoJSON` (feature.go): the internal decode envelope. A RawMessage
field is `none` exactly when the wire field is absent; a wire `null` is
captured as `some Json.null`. -/
structure AnyGeoJSON where
  Typ : String
  ID : String
  Geometry : Option Json
  Properties : Option Json

/-- `json.Unmarshal(bytes, &any)` in `Feature.DecodeGeoJSON` (feature.go):
fills `anyGeoJSON` from the document tree; absent or null fields keep their
zero values. -/
def decodeAnyEnvelope (j : Json) : Res AnyGeoJSON :=
  match j with
  | .null => .ok ⟨"", "", none, none⟩
  | .obj fields =>
    match getStringField fields "type" with
    | .error er => .error er
    | .ok t =>
      match getStringField fields "id" with
      | .error er => .error er
      | .ok id =>
        .ok ⟨t, id, jsonLookup fields "geometry",
             jsonLookup fields "properties"⟩
  | _ => .error .malformed

/-- A host-properties decoder: `json.Unmarshal(fragment, &props)` for the
caller-supplied target. It returns the error outcome together with the
(possibly mutated) target state. -/
abbrev PropsDec (P : Type) : Type := Json → P → Except GoErr Unit × P

/-- `Feature.decodeAnyGeoJSON` (feature.go), as a state transformer over the
feature and the caller's properties target: decode `geometry` (when the
field is present) and assign it, then decode `properties` into the target
(when present), then assign `ID`; an error at any step returns immediately
with the updates made so far kept. -/
def Feature.decodeAnyGeoJSON {P : Type} (fea : Feature) (props : P)
    (pDec : PropsDec P) (any : AnyGeoJSON) :
    Except GoErr Unit × Feature × P :=
  match any.Geometry with
  | some graw =>
    match decodeGeometry graw with
    | .error er => (.error er, fea, props)
    | .ok geo =>
      let fea1 : Feature := { fea with Geometry := geo }
      match any.Properties with
      | some praw =>
        match pDec praw props with
        | (.error er, props1) => (.error er, fea1, props1)
        | (.ok _, props1) => (.ok (), { fea1 with ID := any.ID }, props1)
      | none => (.ok (), { fea1 with ID := any.ID }, props)
  | none =>
    match any.Properties with
    | some praw =>
      match pDec praw props with
      | (.error er, props1) => (.error er, fea, props1)
      | (.ok _, props1) => (.ok (), { fea with ID := any.ID }, props1)
    | none => (.ok (), { fea with ID := any.ID }, props)

/-- `Feature.DecodeGeoJSON` (feature.go): parse the envelope into the local
`anyGeoJSON` (no target mutation), reject a `type` other than `"Feature"`
with the sentinel `ErrUnsupportedType`, then run `decodeAnyGeoJSON`. -/
def Feature.DecodeGeoJSON {P : Type} (fea : Feature) (props : P)
    (pDec : PropsDec P) (j : Json) : Except GoErr Unit × Feature × P :=
  match decodeAnyEnvelope j with
  | .error er => (.error er, fea, props)
  | .ok any =>
    if any.Typ ≠ "Feature" then (.error .errUnsupportedType, fea, props)
    else Feature.decodeAnyGeoJSON fea props pDec any

/-! ### collection.go: FeatureCollection envelope -/

/-- `Collection[T]` (collection.go). -/
structure Collection (T : Type) where
  Features : List T
deriving DecidableEq, Repr

/-- `Collection.BoundingBox` (collection.go): nil for an empty collection;
otherwise seeds the running box from `Features[0].BoundingBox()` —
unconditionally, whether or not that box is defined — and `Join`s every
later member's box into it. `mBBox` is the `BoundingBox()` method of the
member type `T`. -/
def Collection.BoundingBox {T : Type} (mBBox : T → Res GeoJson.BoundingBox)
    (c : Collection T) : Res GeoJson.BoundingBox :=
  match c.Features with
  | [] => .ok []
  | f0 :: rest =>
    match mBBox f0 with
    | .error er => .error er
    | .ok b0 =>
      foldME (fun bbox f =>
        match mBBox f with
        | .error er => .error er
        | .ok b => BoundingBox.Join bbox b) b0 rest

/-- The local envelope of `Collection.DecodeGeoJSON` (collection.go):
`Type`, `BBox` (decoded, so an ill-typed `bbox` is an error), and the raw
`features` / `properties` fragments. -/
structure CollectionEnvelope where
  Typ : String
  BBox : BoundingBox
  Features : Option Json
  Properties : Option Json

/-- Unmarshal the `bbox` field into `[]float64` for the collection
envelope. -/
def decodeBBoxField (fields : List (String × Json)) : Res BoundingBox :=
  match jsonLookup fields "bbox" with
  | none => .ok []
  | some .null => .ok []
  | some (.arr xs) => mapME decodeNum xs
  | some _ => .error .malformed

/-- `json.Unmarshal(bytes, &val)` in `Collection.DecodeGeoJSON`
(collection.go). -/
def decodeCollectionEnvelope (j : Json) : Res CollectionEnvelope :=
  match j with
  | .null => .ok ⟨"", [], none, none⟩
  | .obj fields =>
    match getStringField fields "type" with
    | .error er => .error er
    | .ok t =>
      match decodeBBoxField fields with
      | .error er => .error er
      | .ok bbox =>
        .ok ⟨t, bbox, jsonLookup fields "features",
             jsonLookup fields "properties"⟩
  | _ => .error .malformed

/-- The `properties` step shared by the tail of `Collection.DecodeGeoJSON`
(collection.go). -/
def collectionPropsStep {T P : Type} (c : Collection T) (props : P)
    (pDec : PropsDec P) (praw : Option Json) :
    Except GoErr Unit × Collection T × P :=
  match praw with
  | none => (.ok (), c, props)
  | some pj =>
    match pDec pj props with
    | (.error er, props1) => (.error er, c, props1)
    | (.ok _, props1) => (.ok (), c, props1)

/-- `Collection.DecodeGeoJSON` (collection.go): parse the local envelope
(no target mutation), reject a `type` other than `"FeatureCollection"` with
the sentinel `ErrUnsupportedType`, then decode `features` (absent or `null`
leaves the member list unchanged; on an element error Go can leave the
slice partially decoded — no theorem below relies on that path) and finally
`properties`. `mDec` is the `UnmarshalJSON` of the member type `T`. -/
def Collection.DecodeGeoJSON {T P : Type} (c : Collection T) (props : P)
    (mDec : Json → Res T) (pDec : PropsDec P) (j : Json) :
    Except GoErr Unit × Collection T × P :=
  match decodeCollectionEnvelope j with
  | .error er => (.error er, c, props)
  | .ok val =>
    if val.Typ ≠ "FeatureCollection" then
      (.error .errUnsupportedType, c, props)
    else
      match val.Features with
      | none => collectionPropsStep c props pDec val.Properties
      | some .null => collectionPropsStep c props pDec val.Properties
      | some (.arr xs) =>
        match mapME mDec xs with
        | .error er => (.error er, c, props)
        | .ok feats => collectionPropsStep ⟨feats⟩ props pDec val.Properties
      | some _ => (.error .malformed, c, props)

/-! ### Shared codec lemmas -/

/-- Decoding an encoded list element-wise succeeds when each element
round-trips. -/
theorem mapME_map {α β : Type} (f : α → Json) (d : Json → Res β) (g : α → β)
    (h : ∀ a, d (f a) = .ok (g a)) (l : List α) :
    mapME d (l.map f) = .ok (l.map g) := by
  induction l with
  | nil => rfl
  | cons x xs ih => simp [mapME, h, ih]

/-- `Coord` round-trip through its JSON form. -/
theorem decodeCoord_toJson (c : Coord) : decodeCoord (Coord.toJson c) = .ok c := by
  have h := mapME_map Json.num decodeNum id (fun a => rfl) c
  simpa [Coord.toJson, decodeCoord] using h

/-- `Curve` round-trip through its JSON form. -/
theorem decodeCurve_toJson (s : Curve) : decodeCurve (Curve.toJson s) = .ok s := by
  have h := mapME_map Coord.toJson decodeCoord id (fun a => decodeCoord_toJson a) s
  simpa [Curve.toJson, decodeCurve] using h

/-- `Surface` round-trip through its JSON form. -/
theorem decodeSurface_toJson (s : Surface) :
    decodeSurface (Surface.toJson s) = .ok s := by
  have h := mapME_map Curve.toJson decodeCurve id (fun a => decodeCurve_toJson a) s
  simpa [Surface.toJson, decodeSurface] using h

/-- `Surfaces` round-trip through its JSON form. -/
theorem decodeSurfaces_toJson (s : Surfaces) :
    decodeSurfaces (Surfaces.toJson s) = .ok s := by
  have h := mapME_map Surface.toJson decodeSurface id (fun a => decodeSurface_toJson a) s
  simpa [Surfaces.toJson, decodeSurfaces] using h

/-- Shared round-trip lemma: `decodeGeometry` recovers every marshalled
geometry variant. -/
theorem decodeGeometry_MarshalJSON (g : Geometry) :
    decodeGeometry (Geometry.MarshalJSON g) = .ok (some g) := by
  cases g with
  | point p =>
    simp [Geometry.MarshalJSON, Point.MarshalJSON, decodeGeometry,
      geometryEnvelope, getStringField, jsonLookup, decodeCoordsInto,
      rawMessage, decodeCoord_toJson]
  | multiPoint p =>
    simp [Geometry.MarshalJSON, MultiPoint.MarshalJSON, decodeGeometry,
      geometryEnvelope, getStringField, jsonLookup, decodeCoordsInto,
      rawMessage, decodeCurve_toJson]
  | lineString p =>
    simp [Geometry.MarshalJSON, LineString.MarshalJSON, decodeGeometry,
      geometryEnvelope, getStringField, jsonLookup, decodeCoordsInto,
      rawMessage, decodeCurve_toJson]
  | multiLineString p =>
    simp [Geometry.MarshalJSON, MultiLineString.MarshalJSON, decodeGeometry,
      geometryEnvelope, getStringField, jsonLookup, decodeCoordsInto,
      rawMessage, decodeSurface_toJson]
  | polygon p =>
    simp [Geometry.MarshalJSON, Polygon.MarshalJSON, decodeGeometry,
      geometryEnvelope, getStringField, jsonLookup, decodeCoordsInto,
      rawMessage, decodeSurface_toJson]
  | multiPolygon p =>
    simp [Geometry.MarshalJSON, MultiPolygon.MarshalJSON, decodeGeometry,
      geometryEnvelope, getStringField, jsonLookup, decodeCoordsInto,
      rawMessage, decodeSurfaces_toJson]

/-! ### C2 -/

/-- C2: for every geometry variant `g` (Point, MultiPoint, LineString,
MultiLineString, Polygon, MultiPolygon), decoding the GeoJSON produced by
encoding `g` yields `g` again; the quantification over all coordinate
shapes covers both populated and empty shapes. -/
theorem geometry_decode_encode_roundtrip (g : Geometry) :
    decodeGeometry (Geometry.MarshalJSON g) = .ok (some g) :=
  decodeGeometry_MarshalJSON g

/-- Shared lemma: an unrecognized non-empty `type` tag makes
`decodeGeometry` fail with the error naming the offending string. -/
theorem decodeGeometry_unknown_type (fields : List (String × Json))
    (t : String) (h : jsonLookup fields "type" = some (.str t))
    (hmem : t ∉ (["", "Point", "MultiPoint", "LineString",
                  "MultiLineString", "Polygon", "MultiPolygon"] :
                 List String)) :
    decodeGeometry (.obj fields) = .error (.unsupportedGeometryType t) := by
  simp only [List.mem_cons, List.not_mem_nil, or_false, not_or] at hmem
  obtain ⟨h1, h2, h3, h4, h5, h6, h7⟩ := hmem
  simp [decodeGeometry, geometryEnvelope, getStringField, h,
    h1, h2, h3, h4, h5, h6, h7]

/-! ### C1 -/

/-- C1: `decodeGeometry` on a JSON object: an absent or empty `type` is the
valid null-geometry case (no geometry, no error); each of the six
recognized tags decodes the raw `coordinates` sub-tree into the
corresponding variant's shape; every other `type` string is the
unsupported-type error naming the offending string. -/
theorem decodeGeometry_type_dispatch (fields : List (String × Json)) :
    (jsonLookup fields "type" = none →
      decodeGeometry (.obj fields) = .ok none) ∧
    (jsonLookup fields "type" = some (.str "") →
      decodeGeometry (.obj fields) = .ok none) ∧
    (jsonLookup fields "type" = some (.str "Point") →
      decodeGeometry (.obj fields) =
        decodeCoordsInto decodeCoord (fun c => .point ⟨c⟩)
          (jsonLookup fields "coordinates")) ∧
    (jsonLookup fields "type" = some (.str "MultiPoint") →
      decodeGeometry (.obj fields) =
        decodeCoordsInto decodeCurve (fun c => .multiPoint ⟨c⟩)
          (jsonLookup fields "coordinates")) ∧
    (jsonLookup fields "type" = some (.str "LineString") →
      decodeGeometry (.obj fields) =
        decodeCoordsInto decodeCurve (fun c => .lineString ⟨c⟩)
          (jsonLookup fields "coordinates")) ∧
    (jsonLookup fields "type" = some (.str "MultiLineString") →
      decodeGeometry (.obj fields) =
        decodeCoordsInto decodeSurface (fun c => .multiLineString ⟨c⟩)
          (jsonLookup fields "coordinates")) ∧
    (jsonLookup fields "type" = some (.str "Polygon") →
      decodeGeometry (.obj fields) =
        decodeCoordsInto decodeSurface (fun c => .polygon ⟨c⟩)
          (jsonLookup fields "coordinates")) ∧
    (jsonLookup fields "type" = some (.str "MultiPolygon") →
      decodeGeometry (.obj fields) =
        decodeCoordsInto decodeSurfaces (fun c => .multiPolygon ⟨c⟩)
          (jsonLookup fields "coordinates")) ∧
    (∀ t : String, jsonLookup fields "type" = some (.str t) →
      t ∉ (["", "Point", "MultiPoint", "LineString", "MultiLineString",
            "Polygon", "MultiPolygon"] : List String) →
      decodeGeometry (.obj fields) = .error (.unsupportedGeometryType t)) := by
  refine ⟨?_, ?_, ?_, ?_, ?_, ?_, ?_, ?_, ?_⟩
  case _ => intro h; simp [decodeGeometry, geometryEnvelope, getStringField, h]
  case _ => intro h; simp [decodeGeometry, geometryEnvelope, getStringField, h]
  case _ => intro h; simp [decodeGeometry, geometryEnvelope, getStringField, h]
  case _ => intro h; simp [decodeGeometry, geometryEnvelope, getStringField, h]
  case _ => intro h; simp [decodeGeometry, geometryEnvelope, getStringField, h]
  case _ => intro h; simp [decodeGeometry, geometryEnvelope, getStringField, h]
  case _ => intro h; simp [decodeGeometry, geometryEnvelope, getStringField, h]
  case _ => intro h; simp [decodeGeometry, geometryEnvelope, getStringField, h]
  case _ =>
    exact fun t h hmem => decodeGeometry_unknown_type fields t h hmem

/-- Concrete instance of `decodeGeometry_type_dispatch`: the case-sensitive
near-miss tag `"point"` is rejected, and the error names the offending
string. -/
theorem decodeGeometry_type_dispatch_witness :
    decodeGeometry (.obj [("type", .str "point")]) =
      .error (.unsupportedGeometryType "point") :=
  (decodeGeometry_type_dispatch
      [("type", .str "point")]).2.2.2.2.2.2.2.2 "point" rfl (by decide)

/-! ### C3 -/

/-- `if b < a then b else a` is `min`. -/
theorem ite_lt_eq_min (a b : ℚ) : (if b < a then b else a) = min a b := by
  rcases le_or_lt a b with h | h
  · simp [not_lt.2 h, min_eq_left h]
  · simp [h, min_eq_right h.le]

/-- `if b > a then b else a` is `max`. -/
theorem ite_gt_eq_max (a b : ℚ) : (if b > a then b else a) = max a b := by
  rcases le_or_lt b a with h | h
  · simp [not_lt.2 h, max_eq_left h]
  · simp [h, max_eq_right h.le]

/-- On a well-formed coordinate, one visitor step widens the accumulator to
the pointwise min/max with the coordinate's longitude and latitude. -/
theorem bboxStep_eq (s w n e : ℚ) (c : Coord) (hc : 2 ≤ c.length) :
    bboxStep (s, w, n, e) c =
      .ok (min s (c.getD 1 0), min w (c.getD 0 0),
           max n (c.getD 1 0), max e (c.getD 0 0)) := by
  match c, hc with
  | a :: b :: rest, _ =>
    simp [bboxStep, Coord.Lat, Coord.Lng, ite_lt_eq_min, ite_gt_eq_max]

/-- The visitor fold over well-formed coordinates is the pure pointwise
min/max fold. -/
theorem foldME_bboxStep (cs : List Coord) (acc : ℚ × ℚ × ℚ × ℚ)
    (hc : ∀ c ∈ cs, 2 ≤ c.length) :
    foldME bboxStep acc cs = .ok (cs.foldl
      (fun a c => (min a.1 (c.getD 1 0), min a.2.1 (c.getD 0 0),
                   max a.2.2.1 (c.getD 1 0), max a.2.2.2 (c.getD 0 0)))
      acc) := by
  induction cs generalizing acc with
  | nil => rfl
  | cons x xs ih =>
    have hx : 2 ≤ x.length := hc x (by simp)
    obtain ⟨s, w, n, e⟩ := acc
    rw [List.foldl_cons]
    simp only [foldME, bboxStep_eq s w n e x hx]
    exact ih _ (fun c hcm => hc c (by simp [hcm]))

/-- The simultaneous four-component fold splits into four independent
folds. -/
theorem foldl_minmax_split (cs : List Coord) (s w n e : ℚ) :
    cs.foldl
      (fun a c => (min a.1 (c.getD 1 0), min a.2.1 (c.getD 0 0),
                   max a.2.2.1 (c.getD 1 0), max a.2.2.2 (c.getD 0 0)))
      (s, w, n, e) =
      (cs.foldl (fun a c => min a (c.getD 1 0)) s,
       cs.foldl (fun a c => min a (c.getD 0 0)) w,
       cs.foldl (fun a c => max a (c.getD 1 0)) n,
       cs.foldl (fun a c => max a (c.getD 0 0)) e) := by
  induction cs generalizing s w n e with
  | nil => rfl
  | cons x xs ih => simp only [List.foldl_cons]; exact ih _ _ _ _

/-- C3: the bounding box of the test Polygon is `[100,0,101,1]`; adding the
interior hole ring (the repository's fixture, `0.2 = mkRat 1 5` etc.) does
not change it; the two-polygon MultiPolygon folds to `[100,0,103,3]`; and in
general `boundingBox` is the pointwise min/max over every coordinate of the
traversal, seeded from the given coordinate (for well-formed coordinates of
length at least 2, the domain on which the Go code does not panic). -/
theorem boundingBox_correctness :
    Polygon.BoundingBox
        ⟨[[[100, 0], [101, 0], [101, 1], [100, 1], [100, 0]]]⟩ =
      .ok [100, 0, 101, 1] ∧
    Polygon.BoundingBox
        ⟨[[[100, 0], [101, 0], [101, 1], [100, 1], [100, 0]],
          [[mkRat 504 5, mkRat 4 5], [mkRat 504 5, mkRat 1 5],
           [mkRat 501 5, mkRat 1 5], [mkRat 501 5, mkRat 4 5],
           [mkRat 504 5, mkRat 4 5]]]⟩ =
      .ok [100, 0, 101, 1] ∧
    MultiPolygon.BoundingBox
        ⟨[[[[102, 2], [103, 2], [103, 3], [102, 3], [102, 2]]],
          [[[100, 0], [101, 0], [101, 1], [100, 1], [100, 0]],
           [[mkRat 501 5, mkRat 1 5], [mkRat 501 5, mkRat 4 5],
            [mkRat 504 5, mkRat 4 5], [mkRat 504 5, mkRat 1 5],
            [mkRat 501 5, mkRat 1 5]]]]⟩ =
      .ok [100, 0, 103, 3] ∧
    (∀ (seed : Coord) (cs : List Coord), 2 ≤ seed.length →
      (∀ c ∈ cs, 2 ≤ c.length) →
      boundingBox seed cs = .ok
        [cs.foldl (fun a c => min a (c.getD 0 0)) (seed.getD 0 0),
         cs.foldl (fun a c => min a (c.getD 1 0)) (seed.getD 1 0),
         cs.foldl (fun a c => max a (c.getD 0 0)) (seed.getD 0 0),
         cs.foldl (fun a c => max a (c.getD 1 0)) (seed.getD 1 0)]) := by
  refine ⟨rfl, rfl, rfl, ?_⟩
  intro seed cs hs hc
  match seed, hs with
  | a :: b :: rest, _ =>
    simp only [boundingBox, Coord.Lat, Coord.Lng,
      foldME_bboxStep cs (b, a, b, a) hc, foldl_minmax_split]
    simp [List.getD]

/-- Concrete instance of the general part of `boundingBox_correctness`. -/
theorem boundingBox_correctness_witness :
    boundingBox [100, 0] [[101, 5], [99, 3]] = .ok [99, 0, 101, 5] := by
  have h := boundingBox_correctness.2.2.2 [100, 0] [[101, 5], [99, 3]]
    (by decide) (by decide)
  simpa using h

/-! ### C4 -/

/-- Counterexample to C4 as stated: a MultiPolygon whose first polygon's
first ring is empty is empty at a required nesting level at its first
element, but `MultiPolygon.BoundingBox` indexes `Coords[0][0][0]` without a
guard, so Go panics instead of yielding an absent box — even though a later
element is non-empty and well-formed. -/
theorem bbox_absent_counterexample :
    MultiPolygon.BoundingBox ⟨[[[]], [[[100, 0]]]]⟩ = .error .panic := rfl

/-- C4 (amended): every geometry whose coordinate shape is empty has an
absent (`nil`, modelled `[]`) bounding box, not a degenerate zero box; the
box is also absent at the emptiness the code guards at the first element —
a MultiLineString or Polygon whose first ring is empty and a MultiPolygon
whose first polygon has zero rings — even when the later elements are
non-empty; the deeper, unguarded level (first polygon's first ring empty,
see the counterexample) panics instead. -/
theorem bbox_absent_on_empty :
    Point.BoundingBox ⟨[]⟩ = .ok [] ∧
    MultiPoint.BoundingBox ⟨[]⟩ = .ok [] ∧
    LineString.BoundingBox ⟨[]⟩ = .ok [] ∧
    MultiLineString.BoundingBox ⟨[]⟩ = .ok [] ∧
    Polygon.BoundingBox ⟨[]⟩ = .ok [] ∧
    MultiPolygon.BoundingBox ⟨[]⟩ = .ok [] ∧
    (∀ rest : List Curve, MultiLineString.BoundingBox ⟨[] :: rest⟩ = .ok []) ∧
    (∀ rest : List Curve, Polygon.BoundingBox ⟨[] :: rest⟩ = .ok []) ∧
    (∀ rest : List Surface, MultiPolygon.BoundingBox ⟨[] :: rest⟩ = .ok []) :=
  ⟨rfl, rfl, rfl, rfl, rfl, rfl,
   fun _ => rfl, fun _ => rfl, fun _ => rfl⟩

/-! ### C5 -/

/-- C5 (the code evaluated at the failing inputs): `Collection.BoundingBox`
does not skip members with an absent bounding box. It seeds the running box
from `Features[0].BoundingBox()` unconditionally; when that box is absent
(`nil`) and another member follows, `Join` indexes `bbox[0]` on the nil
slice and Go panics — for an unlocated first member followed by a located
one, and equally for the all-unlocated collection that the repository's own
`TestCollectionUnlocated` marshals expecting success. An empty collection
does yield an absent box, and when every member's box is defined the fold
works (here the three-point aggregate of the spec). -/
theorem collection_boundingBox_panic_on_absent_member :
    Collection.BoundingBox Feature.BoundingBox
        ⟨[⟨"a", none⟩, ⟨"b", some (.point ⟨[100, 0]⟩)⟩]⟩ = .error .panic ∧
    Collection.BoundingBox Feature.BoundingBox
        ⟨[⟨"city:spb", none⟩, ⟨"city:hel", none⟩, ⟨"city:sto", none⟩]⟩ =
      .error .panic ∧
    Collection.BoundingBox Feature.BoundingBox (⟨[]⟩ : Collection Feature) =
      .ok [] ∧
    Collection.BoundingBox Feature.BoundingBox
        ⟨[⟨"city:spb", some (.point ⟨[100, 0]⟩)⟩,
          ⟨"city:hel", some (.point ⟨[101, 1]⟩)⟩,
          ⟨"city:sto", some (.point ⟨[102, 2]⟩)⟩]⟩ = .ok [100, 0, 102, 2] :=
  ⟨rfl, rfl, rfl, rfl⟩

/-! ### C6 -/

/-- Value of field `k` in an encoded JSON object (`none` when the field is
not emitted or the value is not an object). -/
def encodedField (j : Json) (k : String) : Option Json :=
  match j with
  | .obj fields => jsonLookup fields k
  | _ => none

/-- Counterexample to C6 as stated: a Feature whose geometry is present and
is not a Point — a MultiLineString with empty coordinates — encodes with
*no* `bbox` field, because the computed box is absent and `omitempty` drops
it; the claim's only exceptions were an absent geometry and a bare Point. -/
theorem feature_encode_bbox_counterexample :
    Feature.EncodeGeoJSON ⟨"", some (.multiLineString ⟨[]⟩)⟩ (.obj []) =
      .ok (.obj [("type", .str "Feature"),
                 ("geometry", .obj [("type", .str "MultiLineString"),
                                    ("coordinates", .arr [])]),
                 ("properties", .obj [])]) ∧
    encodedField
        (.obj [("type", .str "Feature"),
               ("geometry", .obj [("type", .str "MultiLineString"),
                                  ("coordinates", .arr [])]),
               ("properties", .obj [])]) "bbox" = none :=
  ⟨rfl, rfl⟩

/-- C6 (amended): `Feature.EncodeGeoJSON` emits a `bbox` field computed from
the Geometry's BoundingBox for every geometry variant except when the
Geometry is absent, is a bare Point (where bbox is omitted even though it is
computable), or its BoundingBox is itself absent (empty coordinate shape),
in which case `omitempty` drops the field. -/
theorem featureBBoxSwitch_not_point (g : Geometry) (hnp : ∀ p, g ≠ .point p) :
    featureBBoxSwitch (some g) = Geometry.BoundingBox g := by
  cases g with
  | point p => exact absurd rfl (hnp p)
  | multiPoint _ => rfl
  | lineString _ => rfl
  | multiLineString _ => rfl
  | polygon _ => rfl
  | multiPolygon _ => rfl

theorem feature_encode_bbox_emission (fea : Feature) (props : Json) (j : Json)
    (h : Feature.EncodeGeoJSON fea props = .ok j) :
    ((fea.Geometry = none ∨ (∃ p, fea.Geometry = some (.point p))) →
      encodedField j "bbox" = none) ∧
    (∀ g, fea.Geometry = some g → (∀ p, g ≠ .point p) →
      ∃ b, Geometry.BoundingBox g = .ok b ∧
        encodedField j "bbox" =
          (if b = [] then none
           else some (.arr (b.map Json.num)))) := by
  constructor
  · rintro (hG | ⟨p, hG⟩) <;>
    · rw [Feature.EncodeGeoJSON, hG] at h
      simp only [featureBBoxSwitch, Except.ok.injEq] at h
      subst h
      by_cases hid : fea.ID = "" <;>
        simp [hid, encodedField, jsonLookup]
  · intro g hG hnp
    rw [Feature.EncodeGeoJSON, hG, featureBBoxSwitch_not_point g hnp] at h
    cases hb : Geometry.BoundingBox g with
    | error er => rw [hb] at h; exact absurd h (by simp)
    | ok b =>
      refine ⟨b, rfl, ?_⟩
      rw [hb] at h
      simp only [Except.ok.injEq] at h
      subst h
      by_cases hbe : b = [] <;> by_cases hid : fea.ID = "" <;>
        simp [hbe, hid, encodedField, jsonLookup]

/-- Concrete instance of `feature_encode_bbox_emission`: a two-point
LineString feature encodes with `bbox` `[100,0,101,1]`. -/
theorem feature_encode_bbox_emission_witness :
    encodedField
        (.obj [("type", .str "Feature"),
               ("bbox", .arr [.num 100, .num 0, .num 101, .num 1]),
               ("geometry",
                 .obj [("type", .str "LineString"),
                       ("coordinates",
                         .arr [.arr [.num 100, .num 0],
                               .arr [.num 101, .num 1]])]),
               ("properties", .obj [])]) "bbox" =
      some (.arr [.num 100, .num 0, .num 101, .num 1]) := by
  have h := (feature_encode_bbox_emission
      ⟨"", some (.lineString ⟨[[100, 0], [101, 1]]⟩)⟩ (.obj []) _ rfl).2
      (.lineString ⟨[[100, 0], [101, 1]]⟩) rfl (by intro p hp; cases hp)
  obtain ⟨b, hb, he⟩ := h
  have hbv : b = ([100, 0, 101, 1] : List ℚ) := by
    have : (Except.ok b : Res GeoJson.BoundingBox) = .ok [100, 0, 101, 1] := by
      rw [← hb]; rfl
    simpa using this
  subst hbv
  simpa using he

/-! ### C7 -/

/-- C7: for every host value (a Feature plus statically-typed extra
property fields, modelled by the abstract payload type `P` with its
marshal `pEnc` and unmarshal `pDec`), decoding the document produced by
encoding the host recovers the host exactly — for any identifier
(including the absent `""`) and any geometry (including the absent
`none`), from any prior state of the decode target. An unlocated feature
moreover encodes its `geometry` as JSON `null` and has an absent
`BoundingBox()`. The hypotheses: the host's own properties payload
round-trips, and the encode succeeded. -/
theorem feature_roundtrip_with_properties {P : Type}
    (pEnc : P → Json) (pDec : PropsDec P)
    (idv : String) (geo : Option Geometry) (p : P)
    (fea0 : Feature) (q0 : P) (j : Json)
    (hrt : pDec (pEnc p) q0 = (.ok (), p))
    (henc : Feature.EncodeGeoJSON ⟨idv, geo⟩ (pEnc p) = .ok j) :
    Feature.DecodeGeoJSON fea0 q0 pDec j = (.ok (), ⟨idv, geo⟩, p) ∧
    (geo = none → encodedField j "geometry" = some Json.null) ∧
    Feature.BoundingBox ⟨idv, none⟩ = .ok [] := by
  cases hb : featureBBoxSwitch geo with
  | error er =>
    rw [Feature.EncodeGeoJSON] at henc
    simp only at henc
    rw [hb] at henc
    exact absurd henc (by simp)
  | ok bbox =>
    rw [Feature.EncodeGeoJSON] at henc
    simp only at henc
    rw [hb] at henc
    simp only [Except.ok.injEq] at henc
    subst henc
    refine ⟨?_, ?_, rfl⟩
    · cases geo with
      | none =>
        by_cases hbe : bbox = [] <;> by_cases hid : idv = "" <;>
          simp [Feature.DecodeGeoJSON, decodeAnyEnvelope, getStringField,
            jsonLookup, hbe, hid, Feature.decodeAnyGeoJSON, decodeGeometry,
            geometryEnvelope, hrt]
      | some g =>
        by_cases hbe : bbox = [] <;> by_cases hid : idv = "" <;>
          simp [Feature.DecodeGeoJSON, decodeAnyEnvelope, getStringField,
            jsonLookup, hbe, hid, Feature.decodeAnyGeoJSON,
            decodeGeometry_MarshalJSON, hrt]
    · intro hg
      subst hg
      by_cases hbe : bbox = [] <;> by_cases hid : idv = "" <;>
        simp [hbe, hid, encodedField, jsonLookup]

/-- Concrete instance of `feature_roundtrip_with_properties`: a point
feature with id `"city:spb"` and numeric payload `5` decodes back from its
encoding, overwriting any prior state of the target. -/
theorem feature_roundtrip_with_properties_witness :
    Feature.DecodeGeoJSON ⟨"stale", some (.multiPoint ⟨[[7, 7]]⟩)⟩ (0 : ℚ)
        (fun jj q => match jj with
          | .num x => (.ok (), x)
          | _ => (.error .propsCodec, q))
        (.obj [("type", .str "Feature"),
               ("id", .str "city:spb"),
               ("geometry", .obj [("type", .str "Point"),
                                  ("coordinates", .arr [.num 100, .num 0])]),
               ("properties", .num 5)]) =
      (.ok (), ⟨"city:spb", some (.point ⟨[100, 0]⟩)⟩, (5 : ℚ)) :=
  (feature_roundtrip_with_properties Json.num
      (fun jj q => match jj with
        | .num x => (.ok (), x)
        | _ => (.error .propsCodec, q))
      "city:spb" (some (.point ⟨[100, 0]⟩)) 5
      ⟨"stale", some (.multiPoint ⟨[[7, 7]]⟩)⟩ 0 _ rfl rfl).1

/-! ### C8 -/

/-- Counterexample to C8 as stated: at the Feature and Collection envelope
levels the rejected `type` is answered with the package-level sentinel
`ErrUnsupportedType`, a single fixed value. Decoding documents with the two
different offending strings `"Foo"` and `"Bar"` returns the *same* error
value, so the error cannot carry the offending string (unlike the
geometry-level error, which does). -/
theorem unsupported_type_sentinel_counterexample :
    (Feature.DecodeGeoJSON ⟨"", none⟩ (0 : ℚ) (fun _ q => (.ok (), q))
        (.obj [("type", .str "Foo")])).1 = .error .errUnsupportedType ∧
    (Feature.DecodeGeoJSON ⟨"", none⟩ (0 : ℚ) (fun _ q => (.ok (), q))
        (.obj [("type", .str "Bar")])).1 = .error .errUnsupportedType ∧
    (Collection.DecodeGeoJSON (⟨[]⟩ : Collection Feature) (0 : ℚ)
        (fun _ => .error .malformed) (fun _ q => (.ok (), q))
        (.obj [("type", .str "Foo")])).1 = .error .errUnsupportedType ∧
    (Collection.DecodeGeoJSON (⟨[]⟩ : Collection Feature) (0 : ℚ)
        (fun _ => .error .malformed) (fun _ q => (.ok (), q))
        (.obj [("type", .str "Bar")])).1 = .error .errUnsupportedType :=
  ⟨rfl, rfl, rfl, rfl⟩

/-- C8 (amended): when the `type` discriminator is not the expected tag, the
Geometry level answers with an unsupported-type error that names the
offending string, while the Feature and Collection envelope levels answer
with the fixed sentinel `ErrUnsupportedType`, which carries no offending
string. -/
theorem unsupported_type_error_payload (fields : List (String × Json)) :
    (∀ t : String, jsonLookup fields "type" = some (.str t) →
      t ∉ (["", "Point", "MultiPoint", "LineString", "MultiLineString",
            "Polygon", "MultiPolygon"] : List String) →
      decodeGeometry (.obj fields) = .error (.unsupportedGeometryType t)) ∧
    (∀ {P : Type} (fea : Feature) (q : P) (pDec : PropsDec P)
        (anyf : AnyGeoJSON),
      decodeAnyEnvelope (.obj fields) = .ok anyf → anyf.Typ ≠ "Feature" →
      Feature.DecodeGeoJSON fea q pDec (.obj fields) =
        (.error .errUnsupportedType, fea, q)) ∧
    (∀ {T P : Type} (c : Collection T) (q : P) (mDec : Json → Res T)
        (pDec : PropsDec P) (env : CollectionEnvelope),
      decodeCollectionEnvelope (.obj fields) = .ok env →
      env.Typ ≠ "FeatureCollection" →
      Collection.DecodeGeoJSON c q mDec pDec (.obj fields) =
        (.error .errUnsupportedType, c, q)) := by
  refine ⟨?_, ?_, ?_⟩
  · exact fun t h hmem => decodeGeometry_unknown_type fields t h hmem
  · intro P fea q pDec anyf henv hne
    simp [Feature.DecodeGeoJSON, henv, hne]
  · intro T P c q mDec pDec env henv hne
    simp [Collection.DecodeGeoJSON, henv, hne]

/-- Concrete instance of `unsupported_type_error_payload`: the geometry
level names `"Unknown"`, the feature level answers the bare sentinel. -/
theorem unsupported_type_error_payload_witness :
    decodeGeometry (.obj [("type", .str "Unknown")]) =
      .error (.unsupportedGeometryType "Unknown") ∧
    Feature.DecodeGeoJSON ⟨"", none⟩ (0 : ℚ) (fun _ q => (.ok (), q))
        (.obj [("type", .str "Unknown")]) =
      (.error .errUnsupportedType, ⟨"", none⟩, 0) :=
  ⟨(unsupported_type_error_payload [("type", .str "Unknown")]).1
      "Unknown" rfl (by decide),
   (unsupported_type_error_payload [("type", .str "Unknown")]).2.1
      ⟨"", none⟩ 0 (fun _ q => (.ok (), q)) ⟨"Unknown", "", none, none⟩
      rfl (by decide)⟩

/-! ### C9 -/

/-- C9: a document whose outer `type` is not the expected tag (`"Feature"`
for `Feature.DecodeGeoJSON`, `"FeatureCollection"` for
`Collection.DecodeGeoJSON`) is rejected with `ErrUnsupportedType` before
any mutation: the feature/collection fields and the caller-supplied
properties target come back exactly as they went in. -/
theorem decode_type_mismatch_no_mutation {P Q T : Type}
    (fea : Feature) (p : P) (pDec : PropsDec P)
    (c : Collection T) (q : Q) (mDec : Json → Res T) (qDec : PropsDec Q)
    (jf jc : Json) (anyf : AnyGeoJSON) (env : CollectionEnvelope)
    (h1 : decodeAnyEnvelope jf = .ok anyf) (h2 : anyf.Typ ≠ "Feature")
    (h3 : decodeCollectionEnvelope jc = .ok env)
    (h4 : env.Typ ≠ "FeatureCollection") :
    Feature.DecodeGeoJSON fea p pDec jf =
      (.error .errUnsupportedType, fea, p) ∧
    Collection.DecodeGeoJSON c q mDec qDec jc =
      (.error .errUnsupportedType, c, q) := by
  constructor
  · simp [Feature.DecodeGeoJSON, h1, h2]
  · simp [Collection.DecodeGeoJSON, h3, h4]

/-- Concrete instance of `decode_type_mismatch_no_mutation`: a `"Feature"`
document fed to the collection decoder and an `"Unknown"` document fed to
the feature decoder leave the prior states `⟨"old", point⟩` /
`⟨[point feature]⟩` and the properties targets untouched. -/
theorem decode_type_mismatch_no_mutation_witness :
    Feature.DecodeGeoJSON ⟨"old", some (.point ⟨[1, 2]⟩)⟩ (7 : ℚ)
        (fun _ q => (.ok (), q))
        (.obj [("type", .str "Unknown"), ("properties", .num 9)]) =
      (.error .errUnsupportedType, ⟨"old", some (.point ⟨[1, 2]⟩)⟩, 7) ∧
    Collection.DecodeGeoJSON ⟨[⟨"a", some (.point ⟨[3, 4]⟩)⟩]⟩ (5 : ℚ)
        (fun _ => (.error .malformed : Res Feature))
        (fun _ q => (.ok (), q))
        (.obj [("type", .str "Feature"), ("properties", .num 9)]) =
      (.error .errUnsupportedType, ⟨[⟨"a", some (.point ⟨[3, 4]⟩)⟩]⟩, 5) :=
  decode_type_mismatch_no_mutation
    ⟨"old", some (.point ⟨[1, 2]⟩)⟩ 7 (fun _ q => (.ok (), q))
    ⟨[⟨"a", some (.point ⟨[3, 4]⟩)⟩]⟩ 5
    (fun _ => (.error .malformed : Res Feature)) (fun _ q => (.ok (), q))
    (.obj [("type", .str "Unknown"), ("properties", .num 9)])
    (.obj [("type", .str "Feature"), ("properties", .num 9)])
    ⟨"Unknown", "", none, some (.num 9)⟩ ⟨"Feature", [], none, some (.num 9)⟩
    rfl (by decide) rfl (by decide)

/-! ### C10 -/

/-- C10: inside `Feature.DecodeGeoJSON` on a `"Feature"` document, the
geometry is decoded and assigned before the properties fragment is handed
to the caller's target; when the properties step fails, the returned error
leaves the Feature with its `Geometry` already replaced by the decoded
value while `ID` still holds its old value — decode below the type check is
not all-or-nothing. -/
theorem feature_decode_properties_failure_partial_update {P : Type}
    (fea : Feature) (p : P) (pDec : PropsDec P) (j : Json)
    (anyf : AnyGeoJSON) (graw pj : Json) (geo : Option Geometry)
    (er : GoErr) (p1 : P)
    (h1 : decodeAnyEnvelope j = .ok anyf) (h2 : anyf.Typ = "Feature")
    (h3 : anyf.Geometry = some graw) (h4 : decodeGeometry graw = .ok geo)
    (h5 : anyf.Properties = some pj) (h6 : pDec pj p = (.error er, p1)) :
    Feature.DecodeGeoJSON fea p pDec j =
      (.error er, { fea with Geometry := geo }, p1) := by
  simp [Feature.DecodeGeoJSON, h1, h2, Feature.decodeAnyGeoJSON, h3, h4,
    h5, h6]

/-- Concrete instance of
`feature_decode_properties_failure_partial_update`: the properties decoder
fails, the error propagates, the decoded Point is already installed and the
pre-existing id `"keep-id"` survives. -/
theorem feature_decode_properties_failure_partial_update_witness :
    Feature.DecodeGeoJSON ⟨"keep-id", none⟩ (0 : ℚ)
        (fun _ q => (.error .propsCodec, q))
        (.obj [("type", .str "Feature"),
               ("geometry", .obj [("type", .str "Point"),
                                  ("coordinates", .arr [.num 1, .num 2])]),
               ("properties", .str "boom")]) =
      (.error .propsCodec, ⟨"keep-id", some (.point ⟨[1, 2]⟩)⟩, 0) :=
  feature_decode_properties_failure_partial_update
    ⟨"keep-id", none⟩ 0 (fun _ q => (.error .propsCodec, q))
    (.obj [("type", .str "Feature"),
           ("geometry", .obj [("type", .str "Point"),
                              ("coordinates", .arr [.num 1, .num 2])]),
           ("properties", .str "boom")])
    ⟨"Feature", "",
     some (.obj [("type", .str "Point"),
                 ("coordinates", .arr [.num 1, .num 2])]),
     some (.str "boom")⟩
    (.obj [("type", .str "Point"), ("coordinates", .arr [.num 1, .num 2])])
    (.str "boom") (some (.point ⟨[1, 2]⟩)) .propsCodec 0
    rfl rfl rfl rfl rfl rfl

end GeoJson
